import Mathlib

/-!
Verification of the telemetry decoding and aggregation pipeline of the
PurpleSectorRacing repository.  The definitions below are a shallow
embedding of the JavaScript pipeline in scripts (the final iteration,
src/unnamed/part_004, whose functions coincide with
src/scripts/process-all-ibt.js for the decoding layer).

Modelling conventions:
* a Node Buffer is a list of byte values; reading a multi-byte scalar out
  of range models the Node RangeError by returning none, while plain
  indexing (buffer[i]) models the undefined result by Option;
* JavaScript numbers are modelled exactly: integer reads as ℤ, float reads
  by exact IEEE-754 decoding into ℚ plus explicit NaN and infinity
  constructors; comparisons of decoded values are exact.  The outlier
  threshold product bestTime * (1 + 0.15) is computed through an explicit
  binary64 rounding step (roundF64, round to nearest with ties to even at
  53 bits), under which 90 * (1 + 0.15) lands one ulp below 103.5.  The
  remaining lap-time statistics are exact rational arithmetic; every
  figure the claims pin there is one a double computation reproduces
  exactly;
* the JS null value returned by readVar for unconsumed channel types is
  the JsVal.null constructor, while a thrown exception is Option.none one
  level up.
-/

set_option autoImplicit false

namespace PurpleSector

/-- Byte contents of a Node Buffer, index 0 first.  Entries are byte
values 0..255 (the readers only ever see bytes produced by slicing real
files; the embedding does not need the upper bound). -/
abbrev Buffer := List Nat

/-- Indexing buffer[i] in JS: undefined (none) when out of range or when
the index is negative. -/
def byteAt (buf : Buffer) (i : ℤ) : Option Nat :=
  if 0 ≤ i then buf.get? i.toNat else none

/-- Little-endian unsigned read of width bytes at pos; none models the
Node RangeError thrown when the window [pos, pos+width) is not entirely
inside the buffer. -/
def readUIntLE (buf : Buffer) (pos : ℤ) (width : Nat) : Option Nat :=
  if 0 ≤ pos ∧ pos + width ≤ (buf.length : ℤ) then
    some (((List.range width).map fun (k : ℕ) => ((byteAt buf (pos + (k : ℤ))).getD 0) * 256 ^ k).sum)
  else none

/-- Reinterpret an unsigned value of the given bit width as two's
complement. -/
def toSigned (bits : Nat) (v : Nat) : ℤ :=
  if v < 2 ^ (bits - 1) then (v : ℤ) else (v : ℤ) - 2 ^ bits

/-- buffer.readInt32LE(pos). -/
def readInt32LE (buf : Buffer) (pos : ℤ) : Option ℤ :=
  (readUIntLE buf pos 4).map (toSigned 32)

/-- The JavaScript values that flow out of the sample reader: exact finite
numbers, the two infinities, NaN, and the null used for unconsumed channel
types. -/
inductive JsVal where
  | num (q : ℚ)
  | nan
  | inf
  | negInf
  | null
deriving DecidableEq, Repr

/-- Exact IEEE-754 decoding of a bit pattern with the given exponent and
mantissa field widths (8/23 for binary32, 11/52 for binary64).  Finite
values land in ℚ; the maximal exponent yields inf/negInf/nan. -/
def decodeFloatBits (expBits mantBits : Nat) (bits : Nat) : JsVal :=
  let mant := bits % 2 ^ mantBits
  let expo := bits / 2 ^ mantBits % 2 ^ expBits
  let sign := bits / 2 ^ (mantBits + expBits) % 2
  if expo = 2 ^ expBits - 1 then
    if mant = 0 then (if sign = 0 then .inf else .negInf) else .nan
  else
    let bias : ℤ := 2 ^ (expBits - 1) - 1
    let mag : ℚ :=
      if expo = 0 then (mant : ℚ) * (2 : ℚ) ^ (1 - bias - (mantBits : ℤ))
      else ((2 ^ mantBits + mant : ℕ) : ℚ) * (2 : ℚ) ^ ((expo : ℤ) - bias - (mantBits : ℤ))
    .num (if sign = 0 then mag else -mag)

/-- buffer.readFloatLE(pos): little-endian binary32. -/
def readFloatLE (buf : Buffer) (pos : ℤ) : Option JsVal :=
  (readUIntLE buf pos 4).map (decodeFloatBits 8 23)

/-- buffer.readDoubleLE(pos): little-endian binary64. -/
def readDoubleLE (buf : Buffer) (pos : ℤ) : Option JsVal :=
  (readUIntLE buf pos 8).map (decodeFloatBits 11 52)

/-- One entry of the variable descriptor table, as built by
parseVarHeaders: channel name bytes, scalar type tag, byte offset of the
value inside one sample. -/
structure VarInfo where
  name : List Nat
  type : ℤ
  dataOffset : ℤ
deriving DecidableEq, Repr

/-- readVar(buffer, varInfo, sampleOffset) from part_004 and
scripts/process-all-ibt.js: type tag 2 is read as a little-endian 32-bit
signed integer, tag 4 as a binary32 float, tag 5 as a binary64 float, and
every other tag (including 0, 1 and 3) returns the JS null.  The outer
Option is the exception channel of the two readers. -/
def readVar (buf : Buffer) (v : VarInfo) (sampleOffset : ℤ) : Option JsVal :=
  let pos := sampleOffset + v.dataOffset
  if v.type = 2 then (readInt32LE buf pos).map fun i => .num (i : ℚ)
  else if v.type = 4 then readFloatLE buf pos
  else if v.type = 5 then readDoubleLE buf pos
  else some .null

/-- Number of bytes the decoder of a given type tag consumes (0 for tags
readVar does not decode). -/
def typeWidth (t : ℤ) : Nat :=
  if t = 2 then 4 else if t = 4 then 4 else if t = 5 then 8 else 0

/-- Byte positions readVar inspects for a descriptor at a given sample
start: the width-many positions from sampleOffset + dataOffset on.  The
frame theorem for claim C8 shows readVar depends on no position outside
this list. -/
def readVarReads (v : VarInfo) (sampleOffset : ℤ) : List ℤ :=
  (List.range (typeWidth v.type)).map fun (k : ℕ) => sampleOffset + v.dataOffset + (k : ℤ)

/-- Fields of the fixed binary prologue read by parseIbtHeader (the two
extra raw reads at 48/52 happen at their use sites, as in the source). -/
structure IbtHeader where
  version : ℤ
  tickRate : ℤ
  sessionInfoLen : ℤ
  sessionInfoOffset : ℤ
  numVars : ℤ
  varHeaderOffset : ℤ
  bufLen : ℤ
deriving DecidableEq, Repr

/-- parseIbtHeader(buffer): eight.. seven little-endian 32-bit reads at the
fixed offsets 0, 8, 16, 20, 24, 28, 36; none models the RangeError thrown
when the buffer is shorter than 40 bytes. -/
def parseIbtHeader (buf : Buffer) : Option IbtHeader := do
  let version ← readInt32LE buf 0
  let tickRate ← readInt32LE buf 8
  let sessionInfoLen ← readInt32LE buf 16
  let sessionInfoOffset ← readInt32LE buf 20
  let numVars ← readInt32LE buf 24
  let varHeaderOffset ← readInt32LE buf 28
  let bufLen ← readInt32LE buf 36
  pure ⟨version, tickRate, sessionInfoLen, sessionInfoOffset, numVars, varHeaderOffset, bufLen⟩

/-- Name extraction of one descriptor slot: scan from pos+16 while the
byte is not NUL and the index is below pos+48 (an out-of-range read is
undefined in JS, which compares unequal to 0, so scanning continues), then
slice the scanned range, which clamps to the buffer length.  Only reached
with pos ≥ 0 (after two successful int reads at pos), so the JS negative
slice-index semantics cannot arise. -/
def parseName (buf : Buffer) (pos : ℤ) : List Nat :=
  let len := (((List.range 32).find? fun (k : ℕ) => byteAt buf (pos + 16 + (k : ℤ)) == some 0).getD 32)
  (List.range len).filterMap fun (k : ℕ) => byteAt buf (pos + 16 + (k : ℤ))

/-- One iteration of the parseVarHeaders loop: the scalar type tag at pos,
the sample offset at pos+4 (either read may throw), then the bounded name
scan (which never throws). -/
def parseSlot (buf : Buffer) (pos : ℤ) : Option VarInfo := do
  let ty ← readInt32LE buf pos
  let dOff ← readInt32LE buf (pos + 4)
  pure { name := parseName buf pos, type := ty, dataOffset := dOff }

/-- The parseVarHeaders loop over the first n slots, pushing in order; a
RangeError from any slot read propagates as none, discarding partial
results exactly as the thrown exception does. -/
def parseVarHeadersAux (buf : Buffer) (offset : ℤ) : Nat → Option (List VarInfo)
  | 0 => some []
  | n + 1 => do
    let init ← parseVarHeadersAux buf offset n
    let v ← parseSlot buf (offset + n * 144)
    pure (init ++ [v])

/-- parseVarHeaders(buffer, numVars, offset): one 144-byte slot per
descriptor; the loop runs numVars times (not at all when numVars ≤ 0). -/
def parseVarHeaders (buf : Buffer) (numVars offset : ℤ) : Option (List VarInfo) :=
  parseVarHeadersAux buf offset numVars.toNat

/-- Byte values of the channel name Lap. -/
def lapName : List Nat := [76, 97, 112]

/-- Byte values of the channel name LapLastLapTime. -/
def lapLastLapTimeName : List Nat := [76, 97, 112, 76, 97, 115, 116, 76, 97, 112, 84, 105, 109, 101]

/-- Byte values of the channel name LapBestLapTime. -/
def lapBestLapTimeName : List Nat := [76, 97, 112, 66, 101, 115, 116, 76, 97, 112, 84, 105, 109, 101]

/-- Left-pad a string with the zero digit to the given length, as both
padStart uses in formatLapTime do. -/
def padZeros (n : Nat) (s : String) : String :=
  if s.length < n then String.mk (List.replicate (n - s.length) '0') ++ s else s

/-- Number.toFixed(3) on an exact nonnegative rational: round to three
decimals (ties up, matching Math-style rounding of the positive values
that reach it) and render with exactly three fraction digits. -/
def toFixed3 (q : ℚ) : String :=
  let m := round (q * 1000)
  toString (m / 1000) ++ "." ++ padZeros 3 (toString (m % 1000))

/-- formatLapTime(seconds): the sentinel none for a zero, nonpositive or
over-600 value (the JS guard is falsy-or-nonpositive-or-large), otherwise
minutes, a colon, and the seconds remainder to three decimals padded to
six characters.  The remainder seconds % 60 equals
seconds - 60*floor(seconds/60) for the positive values that reach it. -/
def formatLapTime (seconds : ℚ) : Option String :=
  if seconds = 0 ∨ seconds ≤ 0 ∨ 600 < seconds then none
  else
    let mins : ℤ := ⌊seconds / 60⌋
    let secs : ℚ := seconds - 60 * (mins : ℚ)
    some (toString mins ++ ":" ++ padZeros 6 (toFixed3 secs))

/-- Round to nearest with ties to even at 53 bits of precision and an
unbounded exponent range: the rounding an IEEE-754 binary64 operation
applies to its exact result.  On the magnitudes this pipeline handles no
overflow and no subnormal arises, so the unbounded-exponent grid
coincides with binary64.  Zero is returned unchanged. -/
def roundF64 (q : ℚ) : ℚ :=
  if q = 0 then 0
  else
    let e : ℤ := Int.log 2 |q|
    let scaled : ℚ := |q| * 2 ^ (52 - e)
    let mi : ℤ := ⌊scaled⌋
    let m : ℤ :=
      if scaled - mi < 1 / 2 then mi
      else if 1 / 2 < scaled - mi then mi + 1
      else if mi % 2 = 0 then mi else mi + 1
    (if q < 0 then -1 else 1) * (m : ℚ) * 2 ^ (e - 52)

/-- The outlier threshold fraction: the exact value of the binary64
literal 0.15 in the source, which is one half-ulp below 3/20. -/
def OUTLIER_THRESHOLD : ℚ := 5404319552844595 / 2 ^ 55

/-- The local threshold computed inside filterOutlierLaps: the binary64
product bestTime * (1 + OUTLIER_THRESHOLD), with the sum and the product
each rounded as the JS engine computes them.  For bestTime 90 this is one
ulp below 103.5 (see fpThreshold_90). -/
def fpThreshold (bestTime : ℚ) : ℚ :=
  roundF64 (bestTime * roundF64 (1 + OUTLIER_THRESHOLD))

/-- The configuration flag excluding wet sessions from aggregation. -/
def EXCLUDE_WET_SESSIONS : Bool := true

/-- calculateStdDev(values) without the final square root: null for fewer
than two values, else the population variance (sum of squared deviations
from the mean divided by the count).  The source takes Math.sqrt of this;
since the square root of a rational is in general irrational, theorems
about the consistency score quantify over a stdDev argument constrained
by stdDev ≥ 0 and stdDev^2 = variance. -/
def calculateVariance (values : List ℚ) : Option ℚ :=
  if values.length < 2 then none
  else
    let mean := values.sum / values.length
    some ((values.map fun v => (v - mean) ^ 2).sum / values.length)

/-- calculateConsistencyScore(values) with the value of
calculateStdDev(values) passed explicitly (see calculateVariance): null
for fewer than two values; 100 when the standard deviation is zero (falsy)
or the mean is zero; otherwise round(clamp(100*(1 - cv*5), 0, 100)) for
cv the coefficient of variation. -/
def consistencyScoreWith (values : List ℚ) (stdDev : ℚ) : Option ℤ :=
  if values.length < 2 then none
  else
    let mean := values.sum / values.length
    if stdDev = 0 ∨ mean = 0 then some 100
    else
      let cv := stdDev / mean
      some (round (max 0 (min 100 (100 * (1 - cv * 5)))))

/-- filterOutlierLaps(lapTimes, bestTime): unchanged when the list is
empty or bestTime is falsy (the Infinity sentinel, modelled none, is
truthy and yields an infinite threshold that keeps every lap; a zero
bestTime is falsy); otherwise keep exactly the laps at or below the
binary64 threshold fpThreshold bestTime. -/
def filterOutlierLaps (lapTimes : List ℚ) (bestTime : Option ℚ) : List ℚ :=
  match bestTime with
  | none => lapTimes
  | some b =>
    if lapTimes.length = 0 ∨ b = 0 then lapTimes
    else lapTimes.filter fun t => decide (t ≤ fpThreshold b)

/-- JS strict inequality a !== b on sample-reader values: the values
differ, or either side is NaN (NaN is strictly unequal to everything,
itself included). -/
def jsStrictNe (a b : JsVal) : Bool := a != b || a == .nan || b == .nan

/-- JS comparison v >= 0 on the values the scan state can hold: finite
numbers by value, null coerces to 0 (so null >= 0 holds), +inf passes,
NaN and -inf fail. -/
def jsGeZero : JsVal → Bool
  | .num q => decide (0 ≤ q)
  | .inf => true
  | .null => true
  | _ => false

/-- Combined guard lastLapTime > 0 && lastLapTime < 600, returning the
recorded value: among values readVar can produce it passes exactly for
finite numbers strictly between 0 and 600 (null fails > 0, NaN fails
both, +inf fails < 600, -inf fails > 0). -/
def lapGuard? : JsVal → Option ℚ
  | .num q => if 0 < q ∧ q < 600 then some q else none
  | _ => none

/-- JS comparison q < best where the right side is either the running
best lap time or the Infinity sentinel (none). -/
def jsLtBest (q : ℚ) : Option ℚ → Bool
  | none => true
  | some b => decide (q < b)

/-- One emitted lap record: the Lap channel value at the previous sample,
the recorded time, and its formatted rendering. -/
structure LapRec where
  lapNumber : JsVal
  timeSeconds : ℚ
  timeFormatted : Option String
deriving DecidableEq, Repr

/-- State of the lap boundary scan: prevLap (sentinel -1 before the first
sample), the running best lap time (none is the Infinity sentinel), and
the emitted records in order. -/
structure ScanSt where
  prevLap : JsVal
  best : Option ℚ
  laps : List LapRec
deriving DecidableEq, Repr

/-- Scan state before the first sample. -/
def scanInit : ScanSt := ⟨.num (-1), none, []⟩

/-- Body of the scan loop for one sample, given the Lap and
LapLastLapTime channel values at it: on a lap-number change once the
sentinel has been replaced, record the previous lap when the time guard
passes and lower the running best; always advance prevLap. -/
def scanStep (st : ScanSt) (lap lastLapTime : JsVal) : ScanSt :=
  if jsStrictNe lap st.prevLap && jsGeZero st.prevLap then
    match lapGuard? lastLapTime with
    | some q =>
      { prevLap := lap
        best := if jsLtBest q st.best then some q else st.best
        laps := st.laps ++ [⟨st.prevLap, q, formatLapTime q⟩] }
    | none => { st with prevLap := lap }
  else { st with prevLap := lap }

/-- The scan over the first n samples (sample i starts at
bufOffset + i*bufLen), reading Lap and LapLastLapTime through readVar; a
RangeError from either read aborts the file, modelled none. -/
def scanLoop (buf : Buffer) (lv llv : VarInfo) (bufOffset bufLen : ℤ) : Nat → Option ScanSt
  | 0 => some scanInit
  | n + 1 => do
    let st ← scanLoop buf lv llv bufOffset bufLen n
    let off := bufOffset + n * bufLen
    let lap ← readVar buf lv off
    let llt ← readVar buf llv off
    pure (scanStep st lap llt)

/-- The post-scan fallback guard finalBest > 0 && finalBest <
sessionBestTime, adopting the LapBestLapTime value read at the last
sample.  Among values readVar can produce only a finite number passes:
NaN, null and -inf fail the positivity test, and +inf fails the strict
comparison against a best that is either finite or the Infinity sentinel
itself. -/
def fallbackBest (finalBest : JsVal) (best : Option ℚ) : Option ℚ :=
  match finalBest with
  | .num q => if 0 < q ∧ jsLtBest q best then some q else best
  | _ => best

/-- Output of extractSessionInfo, supplied to the processing core as an
argument: the regex-based text extraction has no failure modes (absent
fields yield defaults) and no claim constrains it, so the core is
verified for every possible metadata value.  The source derives isWet as
precipitation > 0. -/
structure SessionMeta where
  track : String
  trackShort : String
  car : String
  driver : String
  precipitation : ℤ
  skies : String
  isWet : Bool
deriving DecidableEq, Repr

/-- The per-file result object of processIbtFile.  The datetime ISO
rendering is not modelled; the absent JS fields of the missing-channel
early return (formatted best, datetime) and the absent error field of the
normal return are none-valued options. -/
structure Session where
  fileName : String
  date : Option String
  time : Option String
  track : String
  trackShort : String
  car : String
  driver : String
  precipitation : ℤ
  skies : String
  isWet : Bool
  laps : List LapRec
  bestLapTime : Option ℚ
  bestLapTimeFormatted : Option String
  totalLaps : Nat
  err : Option String
deriving DecidableEq, Repr

/-- Math.floor((bufferLength - bufOffset) / bufLen), the sample count.
For bufLen = 0 the JS quotient is NaN (zero loop iterations) or, when the
numerator is positive, +inf (a loop that never terminates and so never
yields a SessionResult); the embedding returns 0 there, and the theorems
that reach the loop concern terminating executions. -/
def jsTotalSamples (len : Nat) (bufOffset bufLen : ℤ) : ℤ :=
  if bufLen = 0 then 0 else ((len : ℤ) - bufOffset).fdiv bufLen

/-- processIbtFile after file reading, filename date extraction and
session metadata extraction (their outputs are arguments here; neither
can throw).  none models a thrown RangeError; otherwise the SessionResult
object is returned, with the missing-channel early return carrying the
error note. -/
def processIbtCore (fileName : String) (dateInfo : Option (String × String))
    (meta : SessionMeta) (buf : Buffer) : Option Session := do
  let header ← parseIbtHeader buf
  let vars ← parseVarHeaders buf header.numVars header.varHeaderOffset
  let lapVar := vars.find? fun v => v.name == lapName
  let lastLapTimeVar := vars.find? fun v => v.name == lapLastLapTimeName
  let bestLapTimeVar := vars.find? fun v => v.name == lapBestLapTimeName
  match lapVar, lastLapTimeVar with
  | some lv, some llv => do
    let bufOffset ← readInt32LE buf 52
    let bufLen := header.bufLen
    let totalSamples := jsTotalSamples buf.length bufOffset bufLen
    let st ← scanLoop buf lv llv bufOffset bufLen totalSamples.toNat
    let best ←
      match bestLapTimeVar with
      | some bv =>
        if 0 < totalSamples then do
          let finalBest ← readVar buf bv (bufOffset + (totalSamples - 1) * bufLen)
          pure (fallbackBest finalBest st.best)
        else pure st.best
      | none => pure st.best
    pure { fileName := fileName
           date := dateInfo.map Prod.fst
           time := dateInfo.map Prod.snd
           track := meta.track, trackShort := meta.trackShort, car := meta.car
           driver := meta.driver, precipitation := meta.precipitation
           skies := meta.skies, isWet := meta.isWet
           laps := st.laps
           bestLapTime := best
           bestLapTimeFormatted := best.bind formatLapTime
           totalLaps := st.laps.length
           err := none }
  | _, _ =>
    pure { fileName := fileName
           date := dateInfo.map Prod.fst
           time := dateInfo.map Prod.snd
           track := meta.track, trackShort := meta.trackShort, car := meta.car
           driver := meta.driver, precipitation := meta.precipitation
           skies := meta.skies, isWet := meta.isWet
           laps := [], bestLapTime := none, bestLapTimeFormatted := none
           totalLaps := 0, err := some "Missing lap variables" }

/-- JS truthiness of an optional string field (an absent value and the
empty string are falsy). -/
def jsTruthyStr : Option String → Bool
  | none => false
  | some s => !(s == "")

/-- JS truthiness of a session best lap time (null and 0 are falsy). -/
def jsTruthyNum : Option ℚ → Bool
  | none => false
  | some q => !(q == 0)

/-- JS comparison a < b between a session best (truthy at every use site,
hence a number) and a running best that may be the Infinity sentinel. -/
def jsLtOpt : Option ℚ → Option ℚ → Bool
  | some q, b => jsLtBest q b
  | none, _ => false

/-- Guard of the aggregation pass deciding whether a session contributes
to the (date, car) bucket of the given key: truthy date and car, not
excluded as wet, and key equality (the JS key is the concatenation
date | car; pair equality is used here). -/
def sessionInGroup (date car : String) (s : Session) : Bool :=
  jsTruthyStr s.date && !(s.car == "") &&
    !(EXCLUDE_WET_SESSIONS && s.isWet) && (s.date == some date) && (s.car == car)

/-- Guard for the car-level bucket, accumulated in the same pass under
the same date/car truthiness and wet checks. -/
def sessionInCarGroup (car : String) (s : Session) : Bool :=
  jsTruthyStr s.date && !(s.car == "") &&
    !(EXCLUDE_WET_SESSIONS && s.isWet) && (s.car == car)

/-- Accumulator of one (date, car) bucket (the car-level bucket has the
same shape): session count, lap count, collected lap times, running best
and its formatted rendering. -/
structure GroupAcc where
  sessions : Nat
  totalLaps : Nat
  allLapTimes : List ℚ
  bestTime : Option ℚ
  bestTimeFormatted : Option String
deriving DecidableEq, Repr

/-- A fresh bucket, as created on first contact with its key. -/
def groupInit : GroupAcc := ⟨0, 0, [], none, none⟩

/-- Contribution of one guard-passing session to its bucket: count it,
add its lap count, append its lap times that pass the 0 < t < 600
re-check, and lower the running best (with its formatted rendering) when
the session best is truthy and strictly smaller. -/
def accumSession (acc : GroupAcc) (s : Session) : GroupAcc :=
  { sessions := acc.sessions + 1
    totalLaps := acc.totalLaps + s.totalLaps
    allLapTimes := acc.allLapTimes ++
      ((s.laps.filter fun l => decide (0 < l.timeSeconds ∧ l.timeSeconds < 600)).map
        LapRec.timeSeconds)
    bestTime :=
      if jsTruthyNum s.bestLapTime && jsLtOpt s.bestLapTime acc.bestTime
      then s.bestLapTime else acc.bestTime
    bestTimeFormatted :=
      if jsTruthyNum s.bestLapTime && jsLtOpt s.bestLapTime acc.bestTime
      then s.bestLapTimeFormatted else acc.bestTimeFormatted }

/-- The bucket of key (date, car) after the aggregation pass over the
session list, in order. -/
def groupFold (date car : String) (sessions : List Session) : GroupAcc :=
  (sessions.filter (sessionInGroup date car)).foldl accumSession groupInit

/-- The bucket of a car key after the aggregation pass. -/
def carFold (car : String) (sessions : List Session) : GroupAcc :=
  (sessions.filter (sessionInCarGroup car)).foldl accumSession groupInit

/-- The clean lap-time set of a bucket: its collected lap times after the
outlier filter anchored at the bucket best. -/
def cleanTimes (acc : GroupAcc) : List ℚ :=
  filterOutlierLaps acc.allLapTimes acc.bestTime

/-- The outlier bookkeeping fields the stats pass adds to each bucket. -/
structure GroupCounts where
  totalLapsRaw : Nat
  totalLapsClean : Nat
  outliersFiltered : Nat
deriving DecidableEq, Repr

/-- totalLapsRaw, totalLapsClean and outliersFiltered as computed by the
stats pass (the derived statistics over the clean set are handled by
calculateVariance and consistencyScoreWith above). -/
def finalizeCounts (acc : GroupAcc) : GroupCounts :=
  ⟨acc.allLapTimes.length, (cleanTimes acc).length,
   acc.allLapTimes.length - (cleanTimes acc).length⟩

/-- One entry of the run-level sessions array: a populated result, or the
per-file error object pushed by the catch block. -/
inductive SessEntry where
  | ok (s : Session)
  | errored (fileName : String)
deriving DecidableEq, Repr

/-- Run-level accumulation state of the main loop: the sessions array,
the running total lap count and the running overall best. -/
structure RunAcc where
  entries : List SessEntry
  totalLaps : Nat
  bestOverallTime : Option ℚ
deriving DecidableEq, Repr

/-- Run state before the first file. -/
def runInit : RunAcc := ⟨[], 0, none⟩

/-- Body of the main per-file loop: a successful decode is pushed and
immediately feeds the run totals (before any wet or date exclusion, which
happens only in the later aggregation pass); a thrown decode pushes the
error object for that file and leaves the totals unchanged. -/
def runStep (acc : RunAcc) : String × Option Session → RunAcc
  | (_, some s) =>
    { entries := acc.entries ++ [.ok s]
      totalLaps := acc.totalLaps + s.totalLaps
      bestOverallTime :=
        if jsTruthyNum s.bestLapTime && jsLtOpt s.bestLapTime acc.bestOverallTime
        then s.bestLapTime else acc.bestOverallTime }
  | (fn, none) => { acc with entries := acc.entries ++ [.errored fn] }

/-- The main loop over the (fileName, decode attempt) pairs of a run. -/
def runFold (attempts : List (String × Option Session)) : RunAcc :=
  attempts.foldl runStep runInit

/-- The successfully decoded sessions of a run, in order. -/
def okSessions (attempts : List (String × Option Session)) : List Session :=
  attempts.filterMap Prod.snd

/-- Population mean, written from the words of the spec, for the
refinement statement of claim C5. -/
def specMean (T : List ℚ) : ℚ := T.sum / T.length

/-- Population variance per the spec: sum of squared deviations from the
mean, divided by the count (not the count minus one). -/
def specPopVariance (T : List ℚ) : ℚ :=
  (T.map fun v => (v - specMean T) ^ 2).sum / T.length

/-- The consistency score formula per the spec:
round(clamp(100 * (1 - 5 CV), 0, 100)) with CV = stddev / mean. -/
def specConsistencyScore (T : List ℚ) (stdDev : ℚ) : ℤ :=
  round (max 0 (min 100 (100 * (1 - 5 * (stdDev / specMean T)))))

/-- A concrete wet session used to witness the run-total claims. -/
def wetSession : Session :=
  { fileName := "w.ibt", date := some "2025-01-02", time := some "10:00:00"
    track := "Monza", trackShort := "Monza", car := "F3", driver := "D"
    precipitation := 10, skies := "Rain", isWet := true
    laps := [⟨.num 1, 88, none⟩], bestLapTime := some 88
    bestLapTimeFormatted := none, totalLaps := 1, err := none }

/-- A default metadata record (all fields at their extraction
defaults). -/
def defaultMeta : SessionMeta :=
  ⟨"Unknown", "Unknown", "Unknown", "Unknown", 0, "Unknown", false⟩

/-- A 56-byte all-zero container: the header parses with numVars 0, the
empty descriptor table lacks both required channels. -/
def zeroBuf : Buffer := List.replicate 56 0

/-- Invariant of the scan state: every emitted lap time is in (0, 600),
a running best is positive and bounds every emitted time from below, and
the Infinity sentinel entails that nothing has been emitted. -/
def ScanInv (st : ScanSt) : Prop :=
  (∀ l ∈ st.laps, 0 < l.timeSeconds ∧ l.timeSeconds < 600) ∧
  (∀ b, st.best = some b → 0 < b ∧ ∀ l ∈ st.laps, b ≤ l.timeSeconds) ∧
  (st.best = none → st.laps = [])

/-- Invariant of every session the decoder can produce: each recorded lap
time lies in (0, 600) and the session best is a positive number at most
every recorded lap time (the LapBestLapTime fallback can only lower
it). -/
def WellFormedSession (s : Session) : Prop :=
  ∀ l ∈ s.laps, (0 < l.timeSeconds ∧ l.timeSeconds < 600) ∧
    ∃ b, s.bestLapTime = some b ∧ 0 < b ∧ b ≤ l.timeSeconds

/-- Bucket invariant: every collected lap time is bounded below by the
(then necessarily present) bucket best. -/
def GroupInv (acc : GroupAcc) : Prop :=
  ∀ t ∈ acc.allLapTimes, ∃ b, acc.bestTime = some b ∧ b ≤ t

/-- A buffer given pointwise by a byte function (used to build concrete
containers whose reads evaluate symbolically). -/
def bufBytes (n : Nat) (f : Nat → Nat) : Buffer := (List.range n).map f

/-- Bytes below 496 of both concrete containers: a header with numVars 3,
varHeaderOffset 64, bufLen 16 and data offset 496 (bytes 240, 1 at 52),
followed by three 144-byte descriptor slots at 64, 208 and 352 declaring
Lap (int at sample offset 0), LapLastLapTime (float at 4) and
LapBestLapTime (float at 8). -/
def hdrByte (i : Nat) : Nat :=
  if i = 0 then 2
  else if i = 8 then 60
  else if i = 24 then 3
  else if i = 28 then 64
  else if i = 36 then 16
  else if i = 52 then 240
  else if i = 53 then 1
  else if i = 64 then 2
  else if i = 80 then 76 else if i = 81 then 97 else if i = 82 then 112
  else if i = 208 then 4
  else if i = 212 then 4
  else if i = 224 then 76 else if i = 225 then 97 else if i = 226 then 112
  else if i = 227 then 76 else if i = 228 then 97 else if i = 229 then 115
  else if i = 230 then 116 else if i = 231 then 76 else if i = 232 then 97
  else if i = 233 then 112 else if i = 234 then 84 else if i = 235 then 105
  else if i = 236 then 109 else if i = 237 then 101
  else if i = 352 then 4
  else if i = 356 then 8
  else if i = 368 then 76 else if i = 369 then 97 else if i = 370 then 112
  else if i = 371 then 66 else if i = 372 then 101 else if i = 373 then 115
  else if i = 374 then 116 else if i = 375 then 76 else if i = 376 then 97
  else if i = 377 then 112 else if i = 378 then 84 else if i = 379 then 105
  else if i = 380 then 109 else if i = 381 then 101
  else 0

/-- Sample bytes of the first container: two 16-byte samples at 496.  In
sample 0 the Lap channel is 1; in sample 1 it is 2, LapLastLapTime is
100.0f (bytes 0, 0, 200, 66) and LapBestLapTime is 95.0f (bytes 0, 0,
190, 66), so one 100-second lap is recorded while the fallback lowers
the session best to 95. -/
def cxByte (i : Nat) : Nat :=
  if i = 496 then 1
  else if i = 512 then 2
  else if i = 518 then 200 else if i = 519 then 66
  else if i = 522 then 190 else if i = 523 then 66
  else hdrByte i

/-- The first concrete container: 496 header/table bytes plus two
samples. -/
def cxBuf : Buffer := bufBytes 528 cxByte

/-- Sample bytes of the second container: one 16-byte sample at 496 with
Lap = 1 throughout (no boundary, so no lap is recorded) and
LapBestLapTime = 700.0f (bytes 0, 0, 47, 68) at the last sample. -/
def cxByte2 (i : Nat) : Nat :=
  if i = 496 then 1
  else if i = 506 then 47 else if i = 507 then 68
  else hdrByte i

/-- The second concrete container: 496 header/table bytes plus one
sample. -/
def cxBuf2 : Buffer := bufBytes 512 cxByte2

/-- The session metadata used with the concrete containers. -/
def raceMeta : SessionMeta := ⟨"Monza", "Monza", "F3", "D", 0, "Clear", false⟩

/-- The descriptor list of both concrete containers. -/
def cxVars : List VarInfo :=
  [⟨lapName, 2, 0⟩, ⟨lapLastLapTimeName, 4, 4⟩, ⟨lapBestLapTimeName, 4, 8⟩]

/-- The session decoded from the first concrete container: one recorded
100-second lap, session best 95 adopted from the LapBestLapTime
fallback. -/
def cxSession : Session :=
  { fileName := "f.ibt", date := some "2025-01-01", time := some "09:00:00"
    track := "Monza", trackShort := "Monza", car := "F3", driver := "D"
    precipitation := 0, skies := "Clear", isWet := false
    laps := [⟨.num 1, 100, formatLapTime 100⟩]
    bestLapTime := some 95
    bestLapTimeFormatted := formatLapTime 95
    totalLaps := 1, err := none }

/-- The session decoded from the second concrete container: no recorded
lap, yet a 700-second session best adopted from LapBestLapTime, whose
formatted rendering is the null sentinel. -/
def cxSession2 : Session :=
  { fileName := "g.ibt", date := none, time := none
    track := "Monza", trackShort := "Monza", car := "F3", driver := "D"
    precipitation := 0, skies := "Clear", isWet := false
    laps := []
    bestLapTime := some 700
    bestLapTimeFormatted := formatLapTime 700
    totalLaps := 0, err := none }

/-- List.range 4 unfolded, for unfolding four-byte reads by simp. -/
lemma range_four : List.range 4 = [0, 1, 2, 3] := rfl

/-- List.range 8 unfolded, for unfolding eight-byte reads by simp. -/
lemma range_eight : List.range 8 = [0, 1, 2, 3, 4, 5, 6, 7] := rfl

/-! ### Shared lemmas -/

lemma readUIntLE_eq_none (buf : Buffer) (pos : ℤ) (w : Nat) :
    readUIntLE buf pos w = none ↔ ¬(0 ≤ pos ∧ pos + w ≤ (buf.length : ℤ)) := by
  unfold readUIntLE
  split <;> simp_all

lemma readInt32LE_eq_none (buf : Buffer) (pos : ℤ) :
    readInt32LE buf pos = none ↔ ¬(0 ≤ pos ∧ pos + 4 ≤ (buf.length : ℤ)) := by
  have h := readUIntLE_eq_none buf pos 4
  rw [show (((4 : ℕ) : ℤ)) = (4 : ℤ) by norm_num] at h
  rw [← h]
  unfold readInt32LE
  cases readUIntLE buf pos 4 <;> simp

lemma parseSlot_eq_none (buf : Buffer) (pos : ℤ) (hpos : 0 ≤ pos) :
    parseSlot buf pos = none ↔ (buf.length : ℤ) < pos + 8 := by
  unfold parseSlot
  by_cases h : (buf.length : ℤ) < pos + 8
  · cases h1 : readInt32LE buf pos with
    | none => simp [h1, h]
    | some ty =>
      have h2 : readInt32LE buf (pos + 4) = none := by
        rw [readInt32LE_eq_none]
        omega
      simp [h1, h2, h]
  · have h1 : readInt32LE buf pos ≠ none := by
      intro hn
      exact absurd ⟨hpos, by omega⟩ ((readInt32LE_eq_none _ _).mp hn)
    have h2 : readInt32LE buf (pos + 4) ≠ none := by
      intro hn
      exact absurd ⟨by omega, by omega⟩ ((readInt32LE_eq_none _ _).mp hn)
    rcases Option.ne_none_iff_exists.mp h1 with ⟨ty, hty⟩
    rcases Option.ne_none_iff_exists.mp h2 with ⟨dOff, hdOff⟩
    simp [← hty, ← hdOff, h]

lemma parseVarHeadersAux_eq_none (buf : Buffer) (offset : ℤ) (n : Nat) :
    parseVarHeadersAux buf offset n = none ↔
      ∃ i < n, parseSlot buf (offset + i * 144) = none := by
  induction n with
  | zero => simp [parseVarHeadersAux]
  | succ n ih =>
    constructor
    · intro hnone
      unfold parseVarHeadersAux at hnone
      cases h : parseVarHeadersAux buf offset n with
      | none =>
        obtain ⟨i, hi, hs⟩ := ih.mp h
        exact ⟨i, Nat.lt_succ_of_lt hi, hs⟩
      | some init =>
        rw [h] at hnone
        cases h2 : parseSlot buf (offset + n * 144) with
        | none => exact ⟨n, Nat.lt_succ_self n, h2⟩
        | some v =>
          rw [h2] at hnone
          simp at hnone
    · rintro ⟨i, hi, hs⟩
      unfold parseVarHeadersAux
      rcases Nat.lt_succ_iff_lt_or_eq.mp hi with hi' | rfl
      · rw [ih.mpr ⟨i, hi', hs⟩]
        rfl
      · cases h : parseVarHeadersAux buf offset i with
        | none => rfl
        | some init =>
          rw [hs]
          rfl

lemma parseVarHeaders_eq_none (buf : Buffer) (numVars offset : ℤ) (hoff : 0 ≤ offset) :
    parseVarHeaders buf numVars offset = none ↔
      1 ≤ numVars ∧ (buf.length : ℤ) < offset + (numVars - 1) * 144 + 8 := by
  unfold parseVarHeaders
  rw [parseVarHeadersAux_eq_none]
  constructor
  · rintro ⟨i, hi, hnone⟩
    have hipos : (0 : ℤ) ≤ offset + (i : ℤ) * 144 := by positivity
    rw [parseSlot_eq_none _ _ hipos] at hnone
    have h1 : 1 ≤ numVars := by omega
    have h2 : (i : ℤ) ≤ numVars - 1 := by omega
    have h3 : (i : ℤ) * 144 ≤ (numVars - 1) * 144 :=
      mul_le_mul_of_nonneg_right h2 (by norm_num)
    exact ⟨h1, by linarith⟩
  · rintro ⟨h1, h2⟩
    refine ⟨numVars.toNat - 1, by omega, ?_⟩
    have hipos : (0 : ℤ) ≤ offset + ((numVars.toNat - 1 : ℕ) : ℤ) * 144 := by positivity
    rw [parseSlot_eq_none _ _ hipos]
    have hcast : ((numVars.toNat - 1 : ℕ) : ℤ) = numVars - 1 := by omega
    rw [hcast]
    linarith

lemma roundF64_eq_down (q : ℚ) (e m : ℤ)
    (h1 : (2 : ℚ) ^ e ≤ q) (h2 : q < 2 ^ (e + 1))
    (hm : (m : ℚ) ≤ q * 2 ^ (52 - e)) (hm2 : q * 2 ^ (52 - e) < m + 1 / 2) :
    roundF64 q = m * 2 ^ (e - 52) := by
  have hq : 0 < q := lt_of_lt_of_le (by positivity) h1
  have habs : |q| = q := abs_of_pos hq
  have hlog : Int.log 2 q = e := by
    have hle : e ≤ Int.log 2 q :=
      (Int.zpow_le_iff_le_log (by norm_num) hq).mp (by exact_mod_cast h1)
    have hlt : Int.log 2 q < e + 1 :=
      (Int.lt_zpow_iff_log_lt (by norm_num) hq).mp (by exact_mod_cast h2)
    omega
  have hfloor : ⌊q * (2 : ℚ) ^ (52 - e)⌋ = m := by
    rw [Int.floor_eq_iff]
    constructor
    · exact hm
    · linarith
  simp only [roundF64]
  rw [if_neg (ne_of_gt hq), habs, hlog, hfloor]
  rw [if_pos (by linarith : q * (2 : ℚ) ^ (52 - e) - (m : ℚ) < 1 / 2)]
  rw [if_neg (not_lt.mpr (le_of_lt hq))]
  ring

lemma roundF64_onePlus :
    roundF64 (1 + OUTLIER_THRESHOLD) = 5179139571476070 / 2 ^ 52 := by
  have h := roundF64_eq_down (1 + OUTLIER_THRESHOLD) 0 5179139571476070
    (by norm_num [OUTLIER_THRESHOLD]) (by norm_num [OUTLIER_THRESHOLD])
    (by norm_num [OUTLIER_THRESHOLD]) (by norm_num [OUTLIER_THRESHOLD])
  rw [h]
  norm_num

lemma fpThreshold_90 : fpThreshold 90 = 7283165022388223 / 2 ^ 46 := by
  have h := roundF64_eq_down ((90 : ℚ) * (5179139571476070 / 2 ^ 52)) 6 7283165022388223
    (by norm_num) (by norm_num) (by norm_num) (by norm_num)
  rw [fpThreshold, roundF64_onePlus, h]
  norm_num

lemma fpThreshold_95 : fpThreshold 95 = 7687785301409791 / 2 ^ 46 := by
  have h := roundF64_eq_down ((95 : ℚ) * (5179139571476070 / 2 ^ 52)) 6 7687785301409791
    (by norm_num) (by norm_num) (by norm_num) (by norm_num)
  rw [fpThreshold, roundF64_onePlus, h]
  norm_num

lemma filterOutlierLaps_some (l : List ℚ) (b : ℚ) (hb : b ≠ 0) :
    filterOutlierLaps l (some b) = l.filter fun t => decide (t ≤ fpThreshold b) := by
  unfold filterOutlierLaps
  rcases l with _ | ⟨x, l⟩
  · simp
  · simp [hb]

/-! ### Claim C2 -/

/-- Claim C2, counterexample: for the singleton clean set [90] the mean is
90 (nonzero), yet the consistency score is null rather than the 100 the
claim states, because the < 2 length guard returns null before the
stdDev-falsy branch can yield 100. -/
theorem c2_cex :
    specMean [(90 : ℚ)] ≠ 0 ∧ consistencyScoreWith [(90 : ℚ)] 0 = none := by
  constructor
  · norm_num [specMean]
  · norm_num [consistencyScoreWith]

/-- Claim C2 (amended): for every lap-time set with fewer than two
elements the aggregator consistency score is null, whatever the standard
deviation argument; the 100 fallback is reachable only for sets of at
least two values (when the standard deviation is zero or the mean is
zero). -/
theorem c2_small_set_score_null (T : List ℚ) (s : ℚ) (h : T.length < 2) :
    consistencyScoreWith T s = none := by
  simp [consistencyScoreWith, h]

/-- Witness for c2_small_set_score_null at the singleton [90]. -/
theorem c2_witness : consistencyScoreWith [(90 : ℚ)] 3 = none :=
  c2_small_set_score_null [(90 : ℚ)] 3 (by norm_num)

/-! ### Claim C4 -/

/-- Claim C4, counterexample: the filter threshold is computed in
binary64, and for a best of 90 the double product 90 * (1 + 0.15) falls
one ulp below 103.5 — so the lap exactly at 103.5 that the claim says is
retained is in fact excluded, and the 90-anchored set [90, 103.5, 104]
keeps only [90]. -/
theorem c4_cex :
    fpThreshold 90 = 103.5 - 1 / 2 ^ 46 ∧
    cleanTimes ⟨1, 3, [90, 103.5, 104], some 90, none⟩ = [90] ∧
    (103.5 : ℚ) ∉ cleanTimes ⟨1, 3, [90, 103.5, 104], some 90, none⟩ := by
  have hclean : cleanTimes ⟨1, 3, [90, 103.5, 104], some 90, none⟩ = [90] := by
    rw [cleanTimes, filterOutlierLaps_some _ _ (by norm_num : (90 : ℚ) ≠ 0)]
    norm_num [fpThreshold_90, List.filter]
  refine ⟨by norm_num [fpThreshold_90], hclean, ?_⟩
  rw [hclean]
  norm_num

/-- Claim C4 (amended): with a bucket best b (truthy), the outlier filter
keeps exactly the collected lap times at or below the binary64 threshold
fpThreshold b (the double product b * (1 + 0.15)); totalLapsRaw counts
every collected lap including the excluded ones, totalLapsClean counts
the kept ones, and the two filter halves partition the raw count.  The
concluding conjuncts pin the corrected instance: a best of 90 puts the
double threshold strictly below 103.5, so the set [90, 103.5, 104] keeps
only [90] — the lap exactly at the exact-arithmetic threshold 103.5 is
excluded, not retained. -/
theorem c4_outlier_filter_exact (acc : GroupAcc) (b : ℚ)
    (hb : acc.bestTime = some b) (hb0 : b ≠ 0) :
    (∀ t : ℚ, t ∈ cleanTimes acc ↔
        t ∈ acc.allLapTimes ∧ t ≤ fpThreshold b) ∧
    (finalizeCounts acc).totalLapsRaw = acc.allLapTimes.length ∧
    (finalizeCounts acc).totalLapsClean =
      (acc.allLapTimes.filter fun t => decide (t ≤ fpThreshold b)).length ∧
    (finalizeCounts acc).totalLapsClean +
      (acc.allLapTimes.filter fun t => !decide (t ≤ fpThreshold b)).length =
      (finalizeCounts acc).totalLapsRaw ∧
    fpThreshold 90 < 103.5 ∧
    cleanTimes ⟨1, 3, [90, 103.5, 104], some 90, none⟩ = [90] := by
  have hclean : cleanTimes acc =
      acc.allLapTimes.filter fun t => decide (t ≤ fpThreshold b) := by
    unfold cleanTimes
    rw [hb, filterOutlierLaps_some _ _ hb0]
  refine ⟨?_, rfl, ?_, ?_, by norm_num [fpThreshold_90], ?_⟩
  · intro t
    rw [hclean, List.mem_filter]
    simp
  · rw [finalizeCounts, hclean]
  · rw [finalizeCounts, hclean]
    exact (List.length_eq_length_filter_add _).symm
  · rw [cleanTimes, filterOutlierLaps_some _ _ (by norm_num : (90 : ℚ) ≠ 0)]
    norm_num [fpThreshold_90, List.filter]

/-- Witness for c4_outlier_filter_exact: membership of the at-boundary
lap 103.5 in the 90-anchored bucket reduces to the binary64 threshold
comparison. -/
theorem c4_witness :
    (103.5 : ℚ) ∈ cleanTimes ⟨1, 3, [90, 103.5, 104], some 90, none⟩ ↔
      (103.5 : ℚ) ∈ ([90, 103.5, 104] : List ℚ) ∧
        (103.5 : ℚ) ≤ fpThreshold 90 :=
  (c4_outlier_filter_exact ⟨1, 3, [90, 103.5, 104], some 90, none⟩ 90 rfl
    (by norm_num)).1 103.5

/-! ### Claim C5 -/

/-- Claim C5: the variance computed by the aggregator is the population
variance of the spec; with the standard deviation constrained to be its
nonnegative square root, the consistency score of a set of at least two
positive lap times equals the spec formula round(clamp(100(1 - 5 CV), 0,
100)); a constant pair scores 100 and the pair [99, 81] (mean 90, stddev
9, CV 0.1) scores 50. -/
theorem c5_consistency_matches_spec :
    (∀ T : List ℚ, 2 ≤ T.length → calculateVariance T = some (specPopVariance T)) ∧
    (∀ (T : List ℚ) (s : ℚ), 2 ≤ T.length → (∀ t ∈ T, 0 < t) → 0 ≤ s →
        calculateVariance T = some (s ^ 2) →
        consistencyScoreWith T s = some (specConsistencyScore T s)) ∧
    consistencyScoreWith [90, 90] 0 = some 100 ∧
    consistencyScoreWith [99, 81] 9 = some 50 := by
  refine ⟨?_, ?_, ?_, ?_⟩
  · intro T hlen
    unfold calculateVariance specPopVariance specMean
    rw [if_neg (by omega)]
  · intro T s hlen hpos hs hvar
    have hne : T ≠ [] := by
      intro h
      rw [h] at hlen
      simp at hlen
    have hsum : 0 < T.sum := List.sum_pos T hpos hne
    have hlenq : (0 : ℚ) < (T.length : ℚ) := by
      have : 0 < T.length := by omega
      exact_mod_cast this
    have hmean : 0 < T.sum / (T.length : ℚ) := div_pos hsum hlenq
    unfold consistencyScoreWith specConsistencyScore specMean
    rw [if_neg (by omega)]
    by_cases hs0 : s = 0
    · subst hs0
      rw [if_pos (Or.inl rfl)]
      norm_num
    · rw [if_neg (by push_neg; exact ⟨hs0, hmean.ne'⟩)]
      ring_nf
  · norm_num [consistencyScoreWith]
  · norm_num [consistencyScoreWith, round_eq]

/-- Witness for c5_consistency_matches_spec at the published pair
[99, 81] with standard deviation 9. -/
theorem c5_witness :
    consistencyScoreWith [99, 81] 9 = some (specConsistencyScore [99, 81] 9) :=
  c5_consistency_matches_spec.2.1 [99, 81] 9 (by norm_num) (by norm_num)
    (by norm_num) (by norm_num [calculateVariance])

/-! ### Claim C9 -/

/-- Claim C9: the run totals are accumulated over every successfully
decoded session before any exclusion: totalLaps is the plain sum of lap
counts over the decoded sessions (wet or dateless included), a wet or
dateless session contributes to no (date, car) bucket and no car bucket,
and a session whose truthy best undercuts the running overall best
supplies bestOverallTime regardless of its wetness or date. -/
theorem c9_totals_before_exclusion :
    (∀ attempts : List (String × Option Session),
        (runFold attempts).totalLaps = ((okSessions attempts).map Session.totalLaps).sum) ∧
    (∀ s : Session, s.isWet = true ∨ jsTruthyStr s.date = false →
        ∀ d c : String, sessionInGroup d c s = false ∧ sessionInCarGroup c s = false) ∧
    (∀ (acc : RunAcc) (fn : String) (s : Session) (q : ℚ),
        s.bestLapTime = some q → q ≠ 0 → jsLtOpt s.bestLapTime acc.bestOverallTime = true →
        (runStep acc (fn, some s)).bestOverallTime = some q) := by
  refine ⟨?_, ?_, ?_⟩
  · have aux : ∀ (attempts : List (String × Option Session)) (acc : RunAcc),
        (attempts.foldl runStep acc).totalLaps =
          acc.totalLaps + ((okSessions attempts).map Session.totalLaps).sum := by
      intro attempts
      induction attempts with
      | nil => intro acc; simp [okSessions]
      | cons x l ih =>
        intro acc
        rcases x with ⟨fn, r⟩
        cases r with
        | none => simp [okSessions, List.foldl_cons, runStep, ih]
        | some s =>
          simp only [List.foldl_cons, okSessions, List.filterMap_cons] at *
          rw [ih]
          simp [runStep]
          omega
    intro attempts
    rw [runFold, aux attempts runInit]
    simp [runInit]
  · intro s h d c
    rcases h with h | h <;>
      constructor <;>
        simp [sessionInGroup, sessionInCarGroup, EXCLUDE_WET_SESSIONS, h]
  · intro acc fn s q hbest hq hlt
    simp [runStep, jsTruthyNum, hbest, hq, hlt] at *
    simp [hlt]

/-- Witness for c9_totals_before_exclusion: a wet session still supplies
the overall best and is excluded from its (date, car) bucket. -/
theorem c9_witness :
    (runStep runInit ("w.ibt", some wetSession)).bestOverallTime = some 88 ∧
      sessionInGroup "2025-01-02" "F3" wetSession = false :=
  ⟨c9_totals_before_exclusion.2.2 runInit "w.ibt" wetSession 88 rfl (by norm_num) rfl,
   (c9_totals_before_exclusion.2.1 wetSession (Or.inl rfl) "2025-01-02" "F3").1⟩

/-! ### Claim C1 -/

/-- Claim C1, counterexample: tags 1 (Bool), 0 (Int8) and 3 (BitField32)
are among the six declared scalar types, yet readVar answers the JS null
for them even on a fully in-range buffer whose first byte is 1, so None
is returned for tags inside the six, not only outside them. -/
theorem c1_cex :
    readVar [1, 0, 0, 0, 0, 0, 0, 0] ⟨[], 1, 0⟩ 0 = some JsVal.null ∧
    readVar [1, 0, 0, 0, 0, 0, 0, 0] ⟨[], 0, 0⟩ 0 = some JsVal.null ∧
    readVar [1, 0, 0, 0, 0, 0, 0, 0] ⟨[], 3, 0⟩ 0 = some JsVal.null := by
  refine ⟨by decide, by decide, by decide⟩

/-- Claim C1 (amended): readVar decodes exactly three type tags: tag 2 as
the two's-complement value of the four little-endian bytes at
sampleStart + byteOffsetInSample, tag 4 as the IEEE binary32 value of the
same four-byte word, tag 5 as the IEEE binary64 value of the eight-byte
word there; every other tag, including the declared Int8 (0), Bool (1)
and BitField32 (3), yields the JS null. -/
theorem c1_readVar_decoded_types (buf : Buffer) (v : VarInfo) (off : ℤ)
    (hpos : 0 ≤ off + v.dataOffset) :
    (v.type = 2 → off + v.dataOffset + 4 ≤ (buf.length : ℤ) →
      readVar buf v off = some (.num (toSigned 32
        ((byteAt buf (off + v.dataOffset)).getD 0 +
         256 * (byteAt buf (off + v.dataOffset + 1)).getD 0 +
         65536 * (byteAt buf (off + v.dataOffset + 2)).getD 0 +
         16777216 * (byteAt buf (off + v.dataOffset + 3)).getD 0)))) ∧
    (v.type = 4 → off + v.dataOffset + 4 ≤ (buf.length : ℤ) →
      readVar buf v off = some (decodeFloatBits 8 23
        ((byteAt buf (off + v.dataOffset)).getD 0 +
         256 * (byteAt buf (off + v.dataOffset + 1)).getD 0 +
         65536 * (byteAt buf (off + v.dataOffset + 2)).getD 0 +
         16777216 * (byteAt buf (off + v.dataOffset + 3)).getD 0))) ∧
    (v.type = 5 → off + v.dataOffset + 8 ≤ (buf.length : ℤ) →
      readVar buf v off = some (decodeFloatBits 11 52
        ((byteAt buf (off + v.dataOffset)).getD 0 +
         256 * (byteAt buf (off + v.dataOffset + 1)).getD 0 +
         65536 * (byteAt buf (off + v.dataOffset + 2)).getD 0 +
         16777216 * (byteAt buf (off + v.dataOffset + 3)).getD 0 +
         4294967296 * (byteAt buf (off + v.dataOffset + 4)).getD 0 +
         1099511627776 * (byteAt buf (off + v.dataOffset + 5)).getD 0 +
         281474976710656 * (byteAt buf (off + v.dataOffset + 6)).getD 0 +
         72057594037927936 * (byteAt buf (off + v.dataOffset + 7)).getD 0))) ∧
    (v.type ≠ 2 → v.type ≠ 4 → v.type ≠ 5 → readVar buf v off = some .null) := by
  refine ⟨?_, ?_, ?_, ?_⟩
  · intro ht hb
    have hcond : 0 ≤ off + v.dataOffset ∧
        off + v.dataOffset + ((4 : ℕ) : ℤ) ≤ (buf.length : ℤ) := by
      push_cast
      omega
    simp only [readVar, ht, if_pos rfl, readInt32LE, readUIntLE, if_pos hcond,
      range_four, List.map_cons, List.map_nil, List.sum_cons, List.sum_nil,
      Option.map_some']
    push_cast
    ring_nf
    simp
  · intro ht hb
    have hcond : 0 ≤ off + v.dataOffset ∧
        off + v.dataOffset + ((4 : ℕ) : ℤ) ≤ (buf.length : ℤ) := by
      push_cast
      omega
    have ht' : v.type ≠ 2 := by rw [ht]; decide
    simp only [readVar, ht, ht', if_neg ht', if_pos rfl, readFloatLE, readUIntLE,
      if_pos hcond, range_four, List.map_cons, List.map_nil, List.sum_cons,
      List.sum_nil, Option.map_some']
    push_cast
    ring_nf
  · intro ht hb
    have hcond : 0 ≤ off + v.dataOffset ∧
        off + v.dataOffset + ((8 : ℕ) : ℤ) ≤ (buf.length : ℤ) := by
      push_cast
      omega
    have ht2 : v.type ≠ 2 := by rw [ht]; decide
    have ht4 : v.type ≠ 4 := by rw [ht]; decide
    simp only [readVar, ht, ht2, ht4, if_neg ht2, if_neg ht4, if_pos rfl,
      readDoubleLE, readUIntLE, if_pos hcond, range_eight, List.map_cons,
      List.map_nil, List.sum_cons, List.sum_nil, Option.map_some']
    push_cast
    ring_nf
  · intro h2 h4 h5
    simp [readVar, h2, h4, h5]

/-- Witness for c1_readVar_decoded_types: the int decode at tag 2 on a
four-byte buffer holding the little-endian value 7. -/
theorem c1_witness :
    readVar [7, 0, 0, 0] ⟨[], 2, 0⟩ 0 = some (.num (toSigned 32 7)) := by
  have h := (c1_readVar_decoded_types [7, 0, 0, 0] ⟨[], 2, 0⟩ 0 (by norm_num)).1
    rfl (by norm_num)
  simpa [byteAt] using h

/-! ### Claim C6 -/

/-- Claim C6, counterexample: on a buffer of eight zero bytes a single
descriptor slot nominally needs 144 bytes (offset 0 + 1*144 exceeds the
length 8), yet parseVarHeaders succeeds: the two header integers of the
slot lie within the buffer and the name scan treats the out-of-range name
bytes as terminators, so no MalformedContainer failure occurs. -/
theorem c6_cex :
    parseVarHeaders [0, 0, 0, 0, 0, 0, 0, 0] 1 0 =
      some [{ name := [], type := 0, dataOffset := 0 }] ∧
    (([0, 0, 0, 0, 0, 0, 0, 0] : Buffer).length : ℤ) < 0 + 1 * 144 := by
  constructor
  · decide
  · decide

/-- Claim C6 (amended): parseVarHeaders fails exactly when some slot has
its two leading integers out of range, i.e. (for a nonnegative table
offset) when numVars ≥ 1 and offset + (numVars - 1)*144 + 8 exceeds the
buffer length; a table that merely extends past the end within a name or
padding region parses leniently, and for numVars ≤ 0 the loop does not
run.  A failing file becomes its own error entry in place and the run
continues: the entries of a run correspond one to one with its files. -/
theorem c6_malformed_table (buf : Buffer) (numVars offset : ℤ) (hoff : 0 ≤ offset) :
    (parseVarHeaders buf numVars offset = none ↔
      1 ≤ numVars ∧ (buf.length : ℤ) < offset + (numVars - 1) * 144 + 8) ∧
    (numVars ≤ 0 → parseVarHeaders buf numVars offset = some []) ∧
    (∀ attempts : List (String × Option Session),
      (runFold attempts).entries =
        attempts.map fun a => match a.2 with
          | some s => SessEntry.ok s
          | none => SessEntry.errored a.1) := by
  refine ⟨parseVarHeaders_eq_none buf numVars offset hoff, ?_, ?_⟩
  · intro h
    unfold parseVarHeaders
    rw [show numVars.toNat = 0 by omega]
    rfl
  · have aux : ∀ (l : List (String × Option Session)) (acc : RunAcc),
        (l.foldl runStep acc).entries =
          acc.entries ++ (l.map fun a => match a.2 with
            | some s => SessEntry.ok s
            | none => SessEntry.errored a.1) := by
      intro l
      induction l with
      | nil => intro acc; simp
      | cons x l ih =>
        intro acc
        rcases x with ⟨fn, r⟩
        cases r with
        | some s => simp [List.foldl_cons, runStep, ih]
        | none => simp [List.foldl_cons, runStep, ih]
    intro attempts
    rw [runFold, aux]
    simp [runInit]

/-- Witness for c6_malformed_table: a four-byte buffer cannot hold even
the two leading integers of one slot, so the parse fails. -/
theorem c6_witness : parseVarHeaders [0, 0, 0, 0] 1 0 = none :=
  ((c6_malformed_table [0, 0, 0, 0] 1 0 (by norm_num)).1).mpr
    ⟨by norm_num, by norm_num⟩

/-! ### Claim C7 -/

/-- Claim C7: whenever the descriptor table of a decodable file lacks the
Lap channel or the LapLastLapTime channel, processing returns normally
(no exception) with an empty lap list, zero lap count, a null best time
and the Missing lap variables note attached, and the run loop records it
as an ordinary session entry. -/
theorem c7_missing_channel (fn : String) (di : Option (String × String))
    (meta : SessionMeta) (buf : Buffer) (hdr : IbtHeader) (vars : List VarInfo)
    (hh : parseIbtHeader buf = some hdr)
    (hv : parseVarHeaders buf hdr.numVars hdr.varHeaderOffset = some vars)
    (hmiss : vars.find? (fun v => v.name == lapName) = none ∨
             vars.find? (fun v => v.name == lapLastLapTimeName) = none) :
    (processIbtCore fn di meta buf).map Session.laps = some [] ∧
    (processIbtCore fn di meta buf).map Session.totalLaps = some 0 ∧
    (processIbtCore fn di meta buf).map Session.bestLapTime = some none ∧
    (processIbtCore fn di meta buf).map Session.err =
      some (some "Missing lap variables") ∧
    (runFold [(fn, processIbtCore fn di meta buf)]).entries.length = 1 := by
  have hcore : processIbtCore fn di meta buf = some
      { fileName := fn, date := di.map Prod.fst, time := di.map Prod.snd
        track := meta.track, trackShort := meta.trackShort, car := meta.car
        driver := meta.driver, precipitation := meta.precipitation
        skies := meta.skies, isWet := meta.isWet
        laps := [], bestLapTime := none, bestLapTimeFormatted := none
        totalLaps := 0, err := some "Missing lap variables" } := by
    rcases hmiss with hm | hm
    · simp only [processIbtCore, hh, hv, Option.bind_eq_bind, Option.some_bind, hm]
      rfl
    · cases hfl : vars.find? (fun v => v.name == lapName) with
      | none =>
        simp only [processIbtCore, hh, hv, Option.bind_eq_bind, Option.some_bind, hfl]
        rfl
      | some lv =>
        simp only [processIbtCore, hh, hv, Option.bind_eq_bind, Option.some_bind,
          hfl, hm]
        rfl
  rw [hcore]
  exact ⟨rfl, rfl, rfl, rfl, by simp [runFold, runStep, runInit]⟩

/-- Witness for c7_missing_channel on the all-zero container. -/
theorem c7_witness :
    (processIbtCore "z.ibt" none defaultMeta zeroBuf).map Session.err =
      some (some "Missing lap variables") :=
  (c7_missing_channel "z.ibt" none defaultMeta zeroBuf ⟨0, 0, 0, 0, 0, 0, 0⟩ []
    (by decide) (by decide) (Or.inl (by decide))).2.2.2.1

/-! ### Claim C8 -/

/-- Claim C8, counterexample: with stride 4 and a descriptor whose
byteOffsetInSample is 4, the two buffers below agree on the whole sample
window [0, 4) (their first four bytes coincide) yet readVar returns
different values, so a byte outside the window was read. -/
theorem c8_cex :
    readVar [0, 0, 0, 0, 1, 0, 0, 0] ⟨[], 2, 4⟩ 0 ≠
      readVar [0, 0, 0, 0, 2, 0, 0, 0] ⟨[], 2, 4⟩ 0 ∧
    ([0, 0, 0, 0, 1, 0, 0, 0] : Buffer).take 4 =
      ([0, 0, 0, 0, 2, 0, 0, 0] : Buffer).take 4 := by
  constructor
  · simp only [readVar, readInt32LE, readUIntLE, byteAt, range_four]
    norm_num
    decide
  · rfl

/-- Claim C8 (amended): readVar inspects exactly the byte positions
[sampleStart + byteOffsetInSample, sampleStart + byteOffsetInSample + w)
where w is the width of its type tag (4, 4, 8 for tags 2, 4, 5, else 0):
its result is unchanged under any modification of the buffer outside
those positions (at equal buffer length), and those positions all lie
inside the sample window [sampleStart, sampleStart + stride) under the
side condition 0 ≤ byteOffsetInSample and byteOffsetInSample + w ≤
stride, which the code does not check. -/
theorem c8_reads_confined (v : VarInfo) (off stride : ℤ) :
    (∀ buf buf2 : Buffer, buf.length = buf2.length →
      (∀ p ∈ readVarReads v off, byteAt buf p = byteAt buf2 p) →
      readVar buf v off = readVar buf2 v off) ∧
    (0 ≤ v.dataOffset → (v.dataOffset + typeWidth v.type : ℤ) ≤ stride →
      ∀ p ∈ readVarReads v off, off ≤ p ∧ p < off + stride) := by
  have congrRead : ∀ (w : Nat) (buf buf2 : Buffer), buf.length = buf2.length →
      (∀ k : ℕ, k < w →
        byteAt buf (off + v.dataOffset + (k : ℤ)) = byteAt buf2 (off + v.dataOffset + (k : ℤ))) →
      readUIntLE buf (off + v.dataOffset) w = readUIntLE buf2 (off + v.dataOffset) w := by
    intro w buf buf2 hlen hag
    unfold readUIntLE
    rw [hlen]
    split
    · congr 2
      apply List.map_congr_left
      intro k hk
      rw [List.mem_range] at hk
      rw [hag k hk]
    · rfl
  constructor
  · intro buf buf2 hlen hag
    have hag' : ∀ k : ℕ, k < typeWidth v.type →
        byteAt buf (off + v.dataOffset + (k : ℤ)) = byteAt buf2 (off + v.dataOffset + (k : ℤ)) := by
      intro k hk
      exact hag _ (List.mem_map.mpr ⟨k, List.mem_range.mpr hk, rfl⟩)
    unfold readVar
    by_cases h2 : v.type = 2
    · have hw : typeWidth v.type = 4 := by simp [typeWidth, h2]
      rw [hw] at hag'
      simp [h2, readInt32LE, congrRead 4 buf buf2 hlen hag']
    · by_cases h4 : v.type = 4
      · have hw : typeWidth v.type = 4 := by simp [typeWidth, h2, h4]
        rw [hw] at hag'
        simp [h2, h4, readFloatLE, congrRead 4 buf buf2 hlen hag']
      · by_cases h5 : v.type = 5
        · have hw : typeWidth v.type = 8 := by simp [typeWidth, h2, h4, h5]
          rw [hw] at hag'
          simp [h2, h4, h5, readDoubleLE, congrRead 8 buf buf2 hlen hag']
        · simp [h2, h4, h5]
  · intro hd hw p hp
    obtain ⟨k, hk, rfl⟩ := List.mem_map.mp hp
    rw [List.mem_range] at hk
    have hk' : (k : ℤ) < (typeWidth v.type : ℤ) := by exact_mod_cast hk
    omega

/-- Witness for c8_reads_confined: two buffers differing only at byte 4
produce the same tag-2 read at offset 0 (the read depends only on bytes
0 to 3). -/
theorem c8_witness :
    readVar [1, 0, 0, 0, 5] ⟨[], 2, 0⟩ 0 = readVar [1, 0, 0, 0, 9] ⟨[], 2, 0⟩ 0 :=
  (c8_reads_confined ⟨[], 2, 0⟩ 0 4).1 [1, 0, 0, 0, 5] [1, 0, 0, 0, 9] rfl (by decide)

/-! ### Scan invariants (for claim C3) -/

lemma scanInit_inv : ScanInv scanInit := by
  refine ⟨?_, ?_, ?_⟩ <;> simp [scanInit]

lemma lapGuard?_eq_some {v : JsVal} {q : ℚ} (h : lapGuard? v = some q) :
    v = .num q ∧ 0 < q ∧ q < 600 := by
  cases v with
  | num x =>
    by_cases hx : 0 < x ∧ x < 600
    · rw [show lapGuard? (JsVal.num x) = some x from by simp [lapGuard?, hx]] at h
      injection h with h2
      subst h2
      exact ⟨rfl, hx⟩
    · rw [show lapGuard? (JsVal.num x) = none from by simp [lapGuard?, hx]] at h
      exact Option.noConfusion h
  | nan => simp [lapGuard?] at h
  | inf => simp [lapGuard?] at h
  | negInf => simp [lapGuard?] at h
  | null => simp [lapGuard?] at h

lemma scanStep_inv (st : ScanSt) (lap llt : JsVal) (h : ScanInv st) :
    ScanInv (scanStep st lap llt) := by
  obtain ⟨h1, h2, h3⟩ := h
  unfold scanStep
  split
  case isTrue hg =>
    cases hq : lapGuard? llt with
    | none => exact ⟨h1, h2, h3⟩
    | some q =>
      obtain ⟨hv, hq0, hq600⟩ := lapGuard?_eq_some hq
      dsimp only
      refine ⟨?_, ?_, ?_⟩
      · intro l hl
        rcases List.mem_append.mp hl with hl | hl
        · exact h1 l hl
        · rcases List.mem_singleton.mp hl with rfl
          exact ⟨hq0, hq600⟩
      · intro b hb
        by_cases hlt : jsLtBest q st.best = true
        · rw [if_pos hlt] at hb
          cases hb
          refine ⟨hq0, ?_⟩
          intro l hl
          rcases List.mem_append.mp hl with hl | hl
          · cases hbst : st.best with
            | none => rw [h3 hbst] at hl; cases hl
            | some b0 =>
              rw [hbst] at hlt
              have hqb0 : q < b0 := by simpa [jsLtBest] using hlt
              exact le_trans hqb0.le ((h2 b0 hbst).2 l hl)
          · rcases List.mem_singleton.mp hl with rfl
            exact le_refl q
        · rw [if_neg hlt] at hb
          obtain ⟨hb0, hbound⟩ := h2 b hb
          refine ⟨hb0, ?_⟩
          intro l hl
          rcases List.mem_append.mp hl with hl | hl
          · exact hbound l hl
          · rcases List.mem_singleton.mp hl with rfl
            rw [hb] at hlt
            have : ¬ q < b := by simpa [jsLtBest] using hlt
            exact le_of_not_lt this
      · intro hnone
        dsimp only at hnone
        by_cases hlt : jsLtBest q st.best = true
        · rw [if_pos hlt] at hnone
          cases hnone
        · rw [if_neg hlt] at hnone
          rw [hnone] at hlt
          simp [jsLtBest] at hlt
  case isFalse => exact ⟨h1, h2, h3⟩

lemma scanLoop_inv (buf : Buffer) (lv llv : VarInfo) (off len : ℤ) (n : Nat)
    (st : ScanSt) (h : scanLoop buf lv llv off len n = some st) : ScanInv st := by
  induction n generalizing st with
  | zero =>
    unfold scanLoop at h
    cases h
    exact scanInit_inv
  | succ n ih =>
    unfold scanLoop at h
    cases hs : scanLoop buf lv llv off len n with
    | none => rw [hs] at h; cases h
    | some st' =>
      rw [hs] at h
      simp only [Option.bind_eq_bind, Option.some_bind] at h
      cases hl : readVar buf lv (off + n * len) with
      | none => rw [hl] at h; cases h
      | some lap =>
        rw [hl] at h
        cases hl2 : readVar buf llv (off + n * len) with
        | none => rw [hl2] at h; cases h
        | some llt =>
          rw [hl2] at h
          cases h
          exact scanStep_inv st' lap llt (ih st' hs)

lemma fallbackBest_isSome (fb : JsVal) (b0 : ℚ) :
    ∃ b, fallbackBest fb (some b0) = some b := by
  cases fb <;> simp [fallbackBest]
  case num q =>
    split <;> simp

lemma fallbackBest_inv (fb : JsVal) (best : Option ℚ) (laps : List LapRec)
    (h2 : ∀ b, best = some b → 0 < b ∧ ∀ l ∈ laps, b ≤ l.timeSeconds)
    (h3 : best = none → laps = []) :
    ∀ b, fallbackBest fb best = some b → 0 < b ∧ ∀ l ∈ laps, b ≤ l.timeSeconds := by
  intro b hb
  cases fb with
  | num q =>
    unfold fallbackBest at hb
    dsimp only at hb
    by_cases hcond : 0 < q ∧ jsLtBest q best = true
    · rw [if_pos hcond] at hb
      injection hb with hb2
      subst hb2
      refine ⟨hcond.1, ?_⟩
      intro l hl
      cases hbst : best with
      | none => rw [h3 hbst] at hl; cases hl
      | some b0 =>
        have hlt := hcond.2
        rw [hbst] at hlt
        have hqb0 : q < b0 := by simpa [jsLtBest] using hlt
        exact le_trans hqb0.le ((h2 b0 hbst).2 l hl)
    · rw [if_neg hcond] at hb
      exact h2 b hb
  | nan => exact h2 b hb
  | inf => exact h2 b hb
  | negInf => exact h2 b hb
  | null => exact h2 b hb

lemma processIbtCore_wellFormed (fn : String) (di : Option (String × String))
    (meta : SessionMeta) (buf : Buffer) (s : Session)
    (h : processIbtCore fn di meta buf = some s) : WellFormedSession s := by
  unfold processIbtCore at h
  cases hh : parseIbtHeader buf with
  | none => rw [hh] at h; cases h
  | some hdr =>
  rw [hh] at h
  simp only [Option.bind_eq_bind, Option.some_bind] at h
  cases hv : parseVarHeaders buf hdr.numVars hdr.varHeaderOffset with
  | none => rw [hv] at h; cases h
  | some vars =>
  rw [hv] at h
  simp only [Option.some_bind] at h
  cases hfl : vars.find? (fun v => v.name == lapName) with
  | none =>
    rw [hfl] at h
    cases h
    intro l hl
    cases hl
  | some lv =>
  rw [hfl] at h
  cases hfll : vars.find? (fun v => v.name == lapLastLapTimeName) with
  | none =>
    rw [hfll] at h
    cases h
    intro l hl
    cases hl
  | some llv =>
  rw [hfll] at h
  cases hbo : readInt32LE buf 52 with
  | none => rw [hbo] at h; cases h
  | some bufOffset =>
  rw [hbo] at h
  simp only [Option.some_bind] at h
  cases hsc : scanLoop buf lv llv bufOffset hdr.bufLen
      (jsTotalSamples buf.length bufOffset hdr.bufLen).toNat with
  | none => rw [hsc] at h; cases h
  | some st =>
  rw [hsc] at h
  simp only [Option.some_bind] at h
  obtain ⟨i1, i2, i3⟩ := scanLoop_inv _ _ _ _ _ _ _ hsc
  have main : ∀ best : Option ℚ,
      (∀ b, best = some b → 0 < b ∧ ∀ l ∈ st.laps, b ≤ l.timeSeconds) →
      (best = none → st.laps = []) →
      WellFormedSession
        { fileName := fn, date := di.map Prod.fst, time := di.map Prod.snd
          track := meta.track, trackShort := meta.trackShort, car := meta.car
          driver := meta.driver, precipitation := meta.precipitation
          skies := meta.skies, isWet := meta.isWet
          laps := st.laps, bestLapTime := best
          bestLapTimeFormatted := best.bind formatLapTime
          totalLaps := st.laps.length, err := none } := by
    intro best hb2 hb3
    intro l hl
    refine ⟨i1 l hl, ?_⟩
    cases hbst : best with
    | none =>
      rw [hb3 hbst] at hl
      cases hl
    | some b =>
      obtain ⟨hpos, hbound⟩ := hb2 b hbst
      exact ⟨b, rfl, hpos, hbound l hl⟩
  cases hbv : vars.find? (fun v => v.name == lapBestLapTimeName) with
  | none =>
    rw [hbv] at h
    dsimp only at h
    cases h
    exact main st.best i2 i3
  | some bv =>
  rw [hbv] at h
  dsimp only at h
  by_cases hts : 0 < jsTotalSamples buf.length bufOffset hdr.bufLen
  · rw [if_pos hts] at h
    cases hfb : readVar buf bv
        (bufOffset + (jsTotalSamples buf.length bufOffset hdr.bufLen - 1) * hdr.bufLen) with
    | none => rw [hfb] at h; cases h
    | some fb =>
      rw [hfb] at h
      simp only [Option.some_bind] at h
      cases h
      refine main (fallbackBest fb st.best) (fallbackBest_inv fb st.best st.laps i2 i3) ?_
      intro hnone
      apply i3
      cases hbst : st.best with
      | none => rfl
      | some b0 =>
        obtain ⟨b, hbeq⟩ := fallbackBest_isSome fb b0
        rw [hbst, hbeq] at hnone
        cases hnone
  · rw [if_neg hts] at h
    cases h
    exact main st.best i2 i3

/-! ### Claim C3 -/

lemma groupInit_inv : GroupInv groupInit := by
  intro t ht
  simp [groupInit] at ht

lemma jsTruthyNum_eq_true {o : Option ℚ} (h : jsTruthyNum o = true) :
    ∃ q, o = some q ∧ q ≠ 0 := by
  cases o with
  | none => simp [jsTruthyNum] at h
  | some q => exact ⟨q, rfl, by simpa [jsTruthyNum] using h⟩

lemma jsLtOpt_some_some {q b : ℚ} (h : jsLtOpt (some q) (some b) = true) : q < b := by
  simpa [jsLtOpt, jsLtBest] using h

lemma jsLtOpt_some_eq_false {q : ℚ} {o : Option ℚ} (h : jsLtOpt (some q) o = false) :
    ∃ b, o = some b ∧ b ≤ q := by
  cases o with
  | none => simp [jsLtOpt, jsLtBest] at h
  | some b => exact ⟨b, rfl, le_of_not_lt (by simpa [jsLtOpt, jsLtBest] using h)⟩

lemma accumSession_inv (acc : GroupAcc) (s : Session)
    (hwf : WellFormedSession s) (hacc : GroupInv acc) :
    GroupInv (accumSession acc s) := by
  intro t ht
  unfold accumSession at ht ⊢
  dsimp only at ht ⊢
  rcases List.mem_append.mp ht with ht | ht
  · obtain ⟨b, hb, hbt⟩ := hacc t ht
    by_cases hupd : (jsTruthyNum s.bestLapTime && jsLtOpt s.bestLapTime acc.bestTime) = true
    · rw [if_pos hupd]
      rw [Bool.and_eq_true] at hupd
      obtain ⟨q, hq, _⟩ := jsTruthyNum_eq_true hupd.1
      rw [hq] at hupd ⊢
      rw [hb] at hupd
      exact ⟨q, rfl, le_trans (jsLtOpt_some_some hupd.2).le hbt⟩
    · rw [if_neg hupd]
      exact ⟨b, hb, hbt⟩
  · obtain ⟨l, hl, rfl⟩ := List.mem_map.mp ht
    have hl' := (List.mem_filter.mp hl).1
    obtain ⟨-, bs, hbs, hbs0, hbst⟩ := hwf l hl'
    by_cases hupd : (jsTruthyNum s.bestLapTime && jsLtOpt s.bestLapTime acc.bestTime) = true
    · rw [if_pos hupd]
      exact ⟨bs, hbs, hbst⟩
    · rw [if_neg hupd]
      rw [Bool.and_eq_true] at hupd
      push_neg at hupd
      have htruthy : jsTruthyNum s.bestLapTime = true := by
        rw [hbs]
        simp [jsTruthyNum, hbs0.ne']
      have hlt : jsLtOpt s.bestLapTime acc.bestTime = false := by
        rcases Bool.eq_false_or_eq_true (jsLtOpt s.bestLapTime acc.bestTime) with h | h
        · exact absurd h (hupd htruthy)
        · exact h
      rw [hbs] at hlt
      obtain ⟨b0, hb0, hb0le⟩ := jsLtOpt_some_eq_false hlt
      exact ⟨b0, hb0, le_trans hb0le hbst⟩

lemma groupFoldAux_inv (l : List Session) :
    ∀ acc : GroupAcc, (∀ s ∈ l, WellFormedSession s) → GroupInv acc →
      GroupInv (l.foldl accumSession acc) := by
  induction l with
  | nil => intro acc _ hacc; exact hacc
  | cons s l ih =>
    intro acc hwf hacc
    exact ih _ (fun s' hs' => hwf s' (List.mem_cons_of_mem _ hs'))
      (accumSession_inv acc s (hwf s (List.mem_cons_self _ _)) hacc)

lemma cleanTimes_subset (acc : GroupAcc) : ∀ t ∈ cleanTimes acc, t ∈ acc.allLapTimes := by
  intro t ht
  unfold cleanTimes filterOutlierLaps at ht
  cases hb : acc.bestTime with
  | none => rw [hb] at ht; exact ht
  | some b =>
    rw [hb] at ht
    dsimp only at ht
    split at ht
    · exact ht
    · exact (List.mem_filter.mp ht).1

/-- Claim C3 (amended): over sessions the decoder can produce (laps in
(0, 600) and a positive session best at most every recorded lap, the
invariant every processIbtCore result satisfies), the bucket best of a
(date, car) group is a lower bound on every clean lap time, hence on
min(T) — but it need not equal min(T) or the pre-filter minimum: the
LapBestLapTime fallback can set a session best strictly below every
recorded lap, and the counterexample exhibits a decoded file whose bucket
has bestTime 95 with clean set [100]. -/
theorem c3_bucket_best_lower_bound (date car : String) (sessions : List Session)
    (hwf : ∀ s ∈ sessions, WellFormedSession s) (b t : ℚ)
    (hb : (groupFold date car sessions).bestTime = some b)
    (ht : t ∈ cleanTimes (groupFold date car sessions)) :
    b ≤ t := by
  have hinv : GroupInv (groupFold date car sessions) := by
    unfold groupFold
    exact groupFoldAux_inv _ _ (fun s hs => hwf s (List.mem_filter.mp hs).1) groupInit_inv
  obtain ⟨b', hb', hbt⟩ := hinv t (cleanTimes_subset _ t ht)
  rw [hb] at hb'
  injection hb' with hb2
  rw [hb2]
  exact hbt

/-! ### Concrete containers for the end-to-end counterexamples -/

lemma bufBytes_length (n : Nat) (f : Nat → Nat) : (bufBytes n f).length = n := by
  simp [bufBytes]

lemma byteAt_bufBytes (n : Nat) (f : Nat → Nat) (i : ℤ) :
    byteAt (bufBytes n f) i =
      if 0 ≤ i ∧ i < (n : ℤ) then some (f i.toNat) else none := by
  unfold byteAt bufBytes
  by_cases h0 : 0 ≤ i
  · rw [if_pos h0]
    by_cases hn : i < (n : ℤ)
    · rw [if_pos ⟨h0, hn⟩, List.get?_map, List.get?_range (by omega), Option.map_some']
    · rw [if_neg (by tauto), List.get?_map,
        List.get?_eq_none.mpr (by simp; omega), Option.map_none']
  · rw [if_neg h0, if_neg (by tauto)]

set_option maxRecDepth 40000 in
lemma cx_header : parseIbtHeader cxBuf = some ⟨2, 60, 0, 0, 3, 64, 16⟩ := by decide

set_option maxRecDepth 400000 in
lemma cx_vars : parseVarHeaders cxBuf 3 64 = some cxVars := by decide

set_option maxRecDepth 40000 in
lemma cx_bufOffset : readInt32LE cxBuf 52 = some 496 := by decide

lemma cx_length : cxBuf.length = 528 := bufBytes_length 528 cxByte

lemma byteAt_cxBuf (p : ℤ) (h : 0 ≤ p ∧ p < 528) :
    byteAt cxBuf p = some (cxByte p.toNat) := by
  show byteAt (bufBytes 528 cxByte) p = some (cxByte p.toNat)
  rw [byteAt_bufBytes]
  rw [if_pos (show 0 ≤ p ∧ p < ((528 : ℕ) : ℤ) by exact_mod_cast h)]

lemma cx_read_lap_s0 : readVar cxBuf ⟨lapName, 2, 0⟩ 496 = some (.num 1) := by
  have h0 : byteAt cxBuf 496 = some 1 := by
    rw [byteAt_cxBuf 496 (by norm_num)]
    simp [cxByte, hdrByte]
  have h1 : byteAt cxBuf 497 = some 0 := by
    rw [byteAt_cxBuf 497 (by norm_num)]
    simp [cxByte, hdrByte]
  have h2 : byteAt cxBuf 498 = some 0 := by
    rw [byteAt_cxBuf 498 (by norm_num)]
    simp [cxByte, hdrByte]
  have h3 : byteAt cxBuf 499 = some 0 := by
    rw [byteAt_cxBuf 499 (by norm_num)]
    simp [cxByte, hdrByte]
  norm_num [readVar, readInt32LE, readUIntLE, range_four, cx_length, toSigned,
    h0, h1, h2, h3]

lemma cx_read_llt_s0 : readVar cxBuf ⟨lapLastLapTimeName, 4, 4⟩ 496 = some (.num 0) := by
  have h0 : byteAt cxBuf 500 = some 0 := by
    rw [byteAt_cxBuf 500 (by norm_num)]
    simp [cxByte, hdrByte]
  have h1 : byteAt cxBuf 501 = some 0 := by
    rw [byteAt_cxBuf 501 (by norm_num)]
    simp [cxByte, hdrByte]
  have h2 : byteAt cxBuf 502 = some 0 := by
    rw [byteAt_cxBuf 502 (by norm_num)]
    simp [cxByte, hdrByte]
  have h3 : byteAt cxBuf 503 = some 0 := by
    rw [byteAt_cxBuf 503 (by norm_num)]
    simp [cxByte, hdrByte]
  norm_num [readVar, readFloatLE, readUIntLE, range_four, cx_length,
    decodeFloatBits, h0, h1, h2, h3]

lemma cx_read_lap_s1 : readVar cxBuf ⟨lapName, 2, 0⟩ 512 = some (.num 2) := by
  have h0 : byteAt cxBuf 512 = some 2 := by
    rw [byteAt_cxBuf 512 (by norm_num)]
    simp [cxByte, hdrByte]
  have h1 : byteAt cxBuf 513 = some 0 := by
    rw [byteAt_cxBuf 513 (by norm_num)]
    simp [cxByte, hdrByte]
  have h2 : byteAt cxBuf 514 = some 0 := by
    rw [byteAt_cxBuf 514 (by norm_num)]
    simp [cxByte, hdrByte]
  have h3 : byteAt cxBuf 515 = some 0 := by
    rw [byteAt_cxBuf 515 (by norm_num)]
    simp [cxByte, hdrByte]
  norm_num [readVar, readInt32LE, readUIntLE, range_four, cx_length, toSigned,
    h0, h1, h2, h3]

lemma cx_read_llt_s1 : readVar cxBuf ⟨lapLastLapTimeName, 4, 4⟩ 512 = some (.num 100) := by
  have h0 : byteAt cxBuf 516 = some 0 := by
    rw [byteAt_cxBuf 516 (by norm_num)]
    simp [cxByte, hdrByte]
  have h1 : byteAt cxBuf 517 = some 0 := by
    rw [byteAt_cxBuf 517 (by norm_num)]
    simp [cxByte, hdrByte]
  have h2 : byteAt cxBuf 518 = some 200 := by
    rw [byteAt_cxBuf 518 (by norm_num)]
    simp [cxByte, hdrByte]
  have h3 : byteAt cxBuf 519 = some 66 := by
    rw [byteAt_cxBuf 519 (by norm_num)]
    simp [cxByte, hdrByte]
  norm_num [readVar, readFloatLE, readUIntLE, range_four, cx_length,
    decodeFloatBits, h0, h1, h2, h3]

lemma cx_read_best_s1 : readVar cxBuf ⟨lapBestLapTimeName, 4, 8⟩ 512 = some (.num 95) := by
  have h0 : byteAt cxBuf 520 = some 0 := by
    rw [byteAt_cxBuf 520 (by norm_num)]
    simp [cxByte, hdrByte]
  have h1 : byteAt cxBuf 521 = some 0 := by
    rw [byteAt_cxBuf 521 (by norm_num)]
    simp [cxByte, hdrByte]
  have h2 : byteAt cxBuf 522 = some 190 := by
    rw [byteAt_cxBuf 522 (by norm_num)]
    simp [cxByte, hdrByte]
  have h3 : byteAt cxBuf 523 = some 66 := by
    rw [byteAt_cxBuf 523 (by norm_num)]
    simp [cxByte, hdrByte]
  norm_num [readVar, readFloatLE, readUIntLE, range_four, cx_length,
    decodeFloatBits, h0, h1, h2, h3]

lemma scanLoop_zero (buf : Buffer) (lv llv : VarInfo) (off len : ℤ) :
    scanLoop buf lv llv off len 0 = some scanInit := rfl

lemma scanLoop_succ (buf : Buffer) (lv llv : VarInfo) (off len : ℤ) (n : Nat) :
    scanLoop buf lv llv off len (n + 1) = (do
      let st ← scanLoop buf lv llv off len n
      let lap ← readVar buf lv (off + n * len)
      let llt ← readVar buf llv (off + n * len)
      pure (scanStep st lap llt)) := rfl

lemma cx_step0 : scanStep scanInit (.num 1) (.num 0) = ⟨.num 1, none, []⟩ := by
  norm_num [scanStep, scanInit, jsStrictNe, jsGeZero, lapGuard?]

lemma cx_step1 : scanStep ⟨.num 1, none, []⟩ (.num 2) (.num 100) =
    ⟨.num 2, some 100, [⟨.num 1, 100, formatLapTime 100⟩]⟩ := by
  norm_num [scanStep, jsStrictNe, jsGeZero, lapGuard?, jsLtBest]

lemma cx_scan : scanLoop cxBuf ⟨lapName, 2, 0⟩ ⟨lapLastLapTimeName, 4, 4⟩ 496 16 2 =
    some ⟨.num 2, some 100, [⟨.num 1, 100, formatLapTime 100⟩]⟩ := by
  rw [show (2 : ℕ) = 1 + 1 from rfl, scanLoop_succ,
    show (1 : ℕ) = 0 + 1 from rfl, scanLoop_succ, scanLoop_zero]
  norm_num [cx_read_lap_s0, cx_read_llt_s0, cx_read_lap_s1, cx_read_llt_s1,
    cx_step0, cx_step1]

lemma cx_session :
    processIbtCore "f.ibt" (some ("2025-01-01", "09:00:00")) raceMeta cxBuf =
      some cxSession := by
  have hfind1 : cxVars.find? (fun v => v.name == lapName) = some ⟨lapName, 2, 0⟩ := by
    decide
  have hfind2 : cxVars.find? (fun v => v.name == lapLastLapTimeName) =
      some ⟨lapLastLapTimeName, 4, 4⟩ := by decide
  have hfind3 : cxVars.find? (fun v => v.name == lapBestLapTimeName) =
      some ⟨lapBestLapTimeName, 4, 8⟩ := by decide
  unfold processIbtCore
  rw [cx_header]
  simp only [Option.bind_eq_bind, Option.some_bind]
  try dsimp only
  rw [cx_vars]
  simp only [Option.some_bind]
  rw [hfind1, hfind2, hfind3]
  try dsimp only
  rw [cx_bufOffset]
  simp only [Option.some_bind]
  rw [cx_length, show jsTotalSamples 528 496 16 = 2 from by decide,
    show Int.toNat 2 = 2 from rfl]
  norm_num [cx_scan, cx_read_best_s1, fallbackBest, jsLtBest, raceMeta, cxSession]

lemma cx_group :
    groupFold "2025-01-01" "F3" [cxSession] =
      { sessions := 1, totalLaps := 1, allLapTimes := [100], bestTime := some 95,
        bestTimeFormatted := formatLapTime 95 } := by
  have e1 : ("2025-01-01" == "" : Bool) = false := by decide
  have e2 : ("F3" == "" : Bool) = false := by decide
  have e3 : ("2025-01-01" == "2025-01-01" : Bool) = true := by decide
  have e4 : ("F3" == "F3" : Bool) = true := by decide
  norm_num [groupFold, sessionInGroup, cxSession, EXCLUDE_WET_SESSIONS, jsTruthyStr,
    accumSession, groupInit, jsTruthyNum, jsLtOpt, jsLtBest, List.filter,
    e1, e2, e3, e4]

/-- Claim C3, counterexample: the first concrete container decodes to a
session with one 100-second lap whose session best is 95 (adopted from
the LapBestLapTime channel at the last sample, claim C10).  Its
(2025-01-01, F3) bucket then has bestTime 95, while both the clean set
and the pre-filter lap-time set are [100]: the bucket best equals
neither min(T) = 100 nor the minimum observed before filtering. -/
theorem c3_cex :
    ((processIbtCore "f.ibt" (some ("2025-01-01", "09:00:00")) raceMeta cxBuf).map
        fun s => ((groupFold "2025-01-01" "F3" [s]).bestTime,
                  cleanTimes (groupFold "2025-01-01" "F3" [s]),
                  (groupFold "2025-01-01" "F3" [s]).allLapTimes)) =
      some (some 95, [100], [100]) ∧ (95 : ℚ) ≠ 100 := by
  constructor
  · rw [cx_session]
    simp only [Option.map_some']
    rw [cx_group]
    norm_num [cleanTimes, filterOutlierLaps, fpThreshold_95, List.filter]
  · norm_num

/-- Witness for c3_bucket_best_lower_bound at the decoded container: the
bucket best 95 is indeed a lower bound on the clean lap time 100. -/
theorem c3_witness : (95 : ℚ) ≤ 100 :=
  c3_bucket_best_lower_bound "2025-01-01" "F3" [cxSession]
    (fun s hs => by
      rcases List.mem_singleton.mp hs with rfl
      exact processIbtCore_wellFormed _ _ _ _ _ cx_session)
    95 100 (by rw [cx_group])
    (by rw [cx_group]
        norm_num [cleanTimes, filterOutlierLaps, fpThreshold_95, List.filter])

set_option maxRecDepth 40000 in
lemma cx2_header : parseIbtHeader cxBuf2 = some ⟨2, 60, 0, 0, 3, 64, 16⟩ := by decide

set_option maxRecDepth 400000 in
lemma cx2_vars : parseVarHeaders cxBuf2 3 64 = some cxVars := by decide

set_option maxRecDepth 40000 in
lemma cx2_bufOffset : readInt32LE cxBuf2 52 = some 496 := by decide

lemma cx2_length : cxBuf2.length = 512 := bufBytes_length 512 cxByte2

lemma byteAt_cxBuf2 (p : ℤ) (h : 0 ≤ p ∧ p < 512) :
    byteAt cxBuf2 p = some (cxByte2 p.toNat) := by
  show byteAt (bufBytes 512 cxByte2) p = some (cxByte2 p.toNat)
  rw [byteAt_bufBytes]
  rw [if_pos (show 0 ≤ p ∧ p < ((512 : ℕ) : ℤ) by exact_mod_cast h)]

lemma cx2_read_lap_s0 : readVar cxBuf2 ⟨lapName, 2, 0⟩ 496 = some (.num 1) := by
  have h0 : byteAt cxBuf2 496 = some 1 := by
    rw [byteAt_cxBuf2 496 (by norm_num)]
    simp [cxByte2, hdrByte]
  have h1 : byteAt cxBuf2 497 = some 0 := by
    rw [byteAt_cxBuf2 497 (by norm_num)]
    simp [cxByte2, hdrByte]
  have h2 : byteAt cxBuf2 498 = some 0 := by
    rw [byteAt_cxBuf2 498 (by norm_num)]
    simp [cxByte2, hdrByte]
  have h3 : byteAt cxBuf2 499 = some 0 := by
    rw [byteAt_cxBuf2 499 (by norm_num)]
    simp [cxByte2, hdrByte]
  norm_num [readVar, readInt32LE, readUIntLE, range_four, cx2_length, toSigned,
    h0, h1, h2, h3]

lemma cx2_read_llt_s0 : readVar cxBuf2 ⟨lapLastLapTimeName, 4, 4⟩ 496 = some (.num 0) := by
  have h0 : byteAt cxBuf2 500 = some 0 := by
    rw [byteAt_cxBuf2 500 (by norm_num)]
    simp [cxByte2, hdrByte]
  have h1 : byteAt cxBuf2 501 = some 0 := by
    rw [byteAt_cxBuf2 501 (by norm_num)]
    simp [cxByte2, hdrByte]
  have h2 : byteAt cxBuf2 502 = some 0 := by
    rw [byteAt_cxBuf2 502 (by norm_num)]
    simp [cxByte2, hdrByte]
  have h3 : byteAt cxBuf2 503 = some 0 := by
    rw [byteAt_cxBuf2 503 (by norm_num)]
    simp [cxByte2, hdrByte]
  norm_num [readVar, readFloatLE, readUIntLE, range_four, cx2_length,
    decodeFloatBits, h0, h1, h2, h3]

lemma cx2_read_best_s0 : readVar cxBuf2 ⟨lapBestLapTimeName, 4, 8⟩ 496 = some (.num 700) := by
  have h0 : byteAt cxBuf2 504 = some 0 := by
    rw [byteAt_cxBuf2 504 (by norm_num)]
    simp [cxByte2, hdrByte]
  have h1 : byteAt cxBuf2 505 = some 0 := by
    rw [byteAt_cxBuf2 505 (by norm_num)]
    simp [cxByte2, hdrByte]
  have h2 : byteAt cxBuf2 506 = some 47 := by
    rw [byteAt_cxBuf2 506 (by norm_num)]
    simp [cxByte2, hdrByte]
  have h3 : byteAt cxBuf2 507 = some 68 := by
    rw [byteAt_cxBuf2 507 (by norm_num)]
    simp [cxByte2, hdrByte]
  norm_num [readVar, readFloatLE, readUIntLE, range_four, cx2_length,
    decodeFloatBits, h0, h1, h2, h3]

lemma cx2_scan : scanLoop cxBuf2 ⟨lapName, 2, 0⟩ ⟨lapLastLapTimeName, 4, 4⟩ 496 16 1 =
    some ⟨.num 1, none, []⟩ := by
  rw [show (1 : ℕ) = 0 + 1 from rfl, scanLoop_succ, scanLoop_zero]
  norm_num [cx2_read_lap_s0, cx2_read_llt_s0, cx_step0]

lemma cx2_session :
    processIbtCore "g.ibt" none raceMeta cxBuf2 = some cxSession2 := by
  have hfind1 : cxVars.find? (fun v => v.name == lapName) = some ⟨lapName, 2, 0⟩ := by
    decide
  have hfind2 : cxVars.find? (fun v => v.name == lapLastLapTimeName) =
      some ⟨lapLastLapTimeName, 4, 4⟩ := by decide
  have hfind3 : cxVars.find? (fun v => v.name == lapBestLapTimeName) =
      some ⟨lapBestLapTimeName, 4, 8⟩ := by decide
  unfold processIbtCore
  rw [cx2_header]
  simp only [Option.bind_eq_bind, Option.some_bind]
  try dsimp only
  rw [cx2_vars]
  simp only [Option.some_bind]
  rw [hfind1, hfind2, hfind3]
  try dsimp only
  rw [cx2_bufOffset]
  simp only [Option.some_bind]
  rw [cx2_length, show jsTotalSamples 512 496 16 = 1 from by decide,
    show Int.toNat 1 = 1 from rfl]
  norm_num [cx2_scan, cx2_read_best_s0, fallbackBest, jsLtBest, raceMeta, cxSession2]

/-! ### Claim C10 -/

/-- Claim C10: when the boundary scan emits no lap record (the running
best is still the Infinity sentinel), the fallback adopts any strictly
positive finite LapBestLapTime value read at the last sample, with no
upper bound; the formatter rejects values over 600, so such a session can
carry a non-null bestLapTime above 600 while its formatted best is the
null sentinel — as the second concrete container does with the value
700. -/
theorem c10_fallback_unbounded :
    (∀ q : ℚ, 0 < q → fallbackBest (.num q) none = some q) ∧
    (∀ q : ℚ, 600 < q → formatLapTime q = none) ∧
    ((processIbtCore "g.ibt" none raceMeta cxBuf2).map
        fun s => (s.laps, s.bestLapTime, s.bestLapTimeFormatted)) =
      some ([], some 700, none) := by
  refine ⟨?_, ?_, ?_⟩
  · intro q hq
    simp [fallbackBest, jsLtBest, hq]
  · intro q hq
    unfold formatLapTime
    rw [if_pos (Or.inr (Or.inr hq))]
  · rw [cx2_session]
    norm_num [cxSession2, formatLapTime]

/-- Witness for c10_fallback_unbounded: the fallback adopts 700 into the
empty-scan state. -/
theorem c10_witness : fallbackBest (.num 700) none = some 700 :=
  c10_fallback_unbounded.1 700 (by norm_num)

end PurpleSector
